import Mathlib

/-!
Shallow embedding of `points_table_simulator/points_table_simulator.py`
(class `PointsTableSimulator`).

A schedule row models one row of the tournament-schedule DataFrame.  The
`winner` cell is `Option String`: `none` models a pandas missing value (NaN /
None); the code treats a cell as undecided when `fillna("") == ""`, i.e. when
it is missing or the empty string.  Column names are modelled as already
resolved (the column-name indirection is validation glue per the class
constructor and is not part of the algorithm).

`pandas.sort_values(by="points", ascending=False)` is modelled as a
deterministic stable descending sort; the Python set used for team discovery
is modelled as first-occurrence deduplication of the away-column values
followed by the home-column values.  No settled claim below depends on the
relative order of equal-points rows or on the team-discovery order.
-/

namespace PointsTableSim

structure ScheduleRow where
  match_number : Nat
  home : String
  away : String
  winner : Option String
deriving DecidableEq, Repr

structure PointsRow where
  team : String
  matches_played : Nat
  matches_won : Nat
  matches_lost : Nat
  matches_drawn : Nat
  matches_with_no_result : Nat
  remaining_matches : Nat
  points : Int
deriving DecidableEq, Repr

structure PointsTableSimulator where
  tournament_schedule : List ScheduleRow
  points_for_a_win : Int
  points_for_a_no_result : Int
  points_for_a_draw : Int
deriving DecidableEq, Repr

/-- `winner` cell after `fillna("")`. -/
def winnerFilled (r : ScheduleRow) : String := r.winner.getD ""

/-- A row is decided when its winner cell, after `fillna("")`, is not `""`. -/
def rowDecided (r : ScheduleRow) : Bool := winnerFilled r ≠ ""

/-- The row filter `(away == team) | (home == team)`. -/
def involves (t : String) (r : ScheduleRow) : Bool := r.away = t || r.home = t

/-- Count for `matches_played`: rows involving the team whose winner cell is
non-empty after `fillna("")`. -/
def matchesPlayedCount (s : List ScheduleRow) (t : String) : Nat :=
  s.countP fun r => involves t r && rowDecided r

/-- Count for `matches_won`: rows whose winner cell equals the team (a missing
cell compares unequal, as in pandas). -/
def matchesWonCount (s : List ScheduleRow) (t : String) : Nat :=
  s.countP fun r => r.winner = some t

/-- Count for `matches_lost`: rows involving the team whose winner cell is not
the team and is non-empty after `fillna("")`.  Note the source filter does not
exclude the `"Draw"` / `"No Result"` sentinel values. -/
def matchesLostCount (s : List ScheduleRow) (t : String) : Nat :=
  s.countP fun r => involves t r && !(r.winner = some t : Bool) && rowDecided r

/-- Count for `matches_drawn`: rows involving the team whose winner cell is
the sentinel `"Draw"`. -/
def matchesDrawnCount (s : List ScheduleRow) (t : String) : Nat :=
  s.countP fun r => involves t r && r.winner = some "Draw"

/-- Count for `matches_with_no_result`: rows involving the team whose winner
cell is the sentinel `"No Result"`. -/
def noResultCount (s : List ScheduleRow) (t : String) : Nat :=
  s.countP fun r => involves t r && r.winner = some "No Result"

/-- Count for `remaining_matches`: rows involving the team whose winner cell
is empty after `fillna("")`. -/
def remainingCount (s : List ScheduleRow) (t : String) : Nat :=
  s.countP fun r => involves t r && !rowDecided r

def appendUnique (acc : List String) (t : String) : List String :=
  if t ∈ acc then acc else acc ++ [t]

/-- Model of `set(schedule[away].unique()).union(set(schedule[home].unique()))`:
the distinct team names, in first-occurrence order over the away column
followed by the home column.  (Python set iteration order is unspecified; the
claims settled below do not depend on this order.) -/
def uniqueTeams (s : List ScheduleRow) : List String :=
  (s.map (fun r => r.away) ++ s.map (fun r => r.home)).foldl appendUnique []

/-- The dict appended to `team_points_data` for one team. -/
def teamPointsRow (sim : PointsTableSimulator) (t : String) : PointsRow :=
  let s := sim.tournament_schedule
  { team := t
    matches_played := matchesPlayedCount s t
    matches_won := matchesWonCount s t
    matches_lost := matchesLostCount s t
    matches_drawn := matchesDrawnCount s t
    matches_with_no_result := noResultCount s t
    remaining_matches := remainingCount s t
    points := (matchesWonCount s t : Int) * sim.points_for_a_win
      + (matchesDrawnCount s t : Int) * sim.points_for_a_draw
      + (noResultCount s t : Int) * sim.points_for_a_no_result }

/-- Insert a row into a descending-by-points list, after every row with
points ≥ its own (stable). -/
def insertRowByPointsDesc (r : PointsRow) : List PointsRow → List PointsRow
  | [] => [r]
  | x :: xs => if x.points < r.points then r :: x :: xs else x :: insertRowByPointsDesc r xs

/-- Model of `sort_values(by="points", ascending=False)` followed by
`reset_index(drop=True)`: a deterministic stable descending sort. -/
def sortRowsByPointsDesc : List PointsRow → List PointsRow
  | [] => []
  | r :: rs => insertRowByPointsDesc r (sortRowsByPointsDesc rs)

/-- Embedding of the `current_points_table` property. -/
def current_points_table (sim : PointsTableSimulator) : List PointsRow :=
  sortRowsByPointsDesc ((uniqueTeams sim.tournament_schedule).map (teamPointsRow sim))

/-- Embedding of `_find_remaining_matches_in_the_schedule`: the
`(home, away)` pairs of the undecided rows, in DataFrame row order. -/
def find_remaining_matches_in_the_schedule (sim : PointsTableSimulator) :
    List (String × String) :=
  (sim.tournament_schedule.filter (fun r => !rowDecided r)).map fun r => (r.home, r.away)

/-- Embedding of `list(itertools.product(*remaining_matches))`: one candidate
per element of the cartesian product, the first list varying slowest, and
within each pair the home team before the away team. -/
def productOutcomes : List (String × String) → List (List String)
  | [] => [[]]
  | p :: rest =>
      (productOutcomes rest).map (fun c => p.1 :: c)
        ++ (productOutcomes rest).map (fun c => p.2 :: c)

/-- Embedding of `_update_points_table`: the four `.loc` statements, in source
order, each updating every row whose `team` cell matches. -/
def update_points_table (pfw : Int) (table : List PointsRow)
    (home away winning : String) : List PointsRow :=
  let t1 := table.map fun r =>
    if r.team = winning then { r with matches_won := r.matches_won + 1 } else r
  let t2 := t1.map fun r =>
    if r.team = winning then { r with points := r.points + pfw } else r
  let t3 := t2.map fun r =>
    if r.team = home then { r with matches_played := r.matches_played + 1 } else r
  t3.map fun r =>
    if r.team = away then { r with matches_played := r.matches_played + 1 } else r

/-- Model of `df.loc[pos, winner_col] = w` on a DataFrame with the default
`RangeIndex`: replace the winner cell of the row at position `pos` (the
position is always in range when the source reaches this statement). -/
def setWinnerAt : List ScheduleRow → Nat → String → List ScheduleRow
  | [], _, _ => []
  | r :: rs, 0, w => { r with winner := some w } :: rs
  | r :: rs, n + 1, w => r :: setWinnerAt rs n w

/-- Embedding of the inner `for match_number, possible_winning_team in
enumerate(...)` loop: `pos` is the row label
`match_number_of_the_first_remaining_match + match_number - 1`, i.e.
`len(schedule) - P` at the first iteration; each iteration writes the chosen
winner into the temporary schedule and applies `_update_points_table` for the
corresponding `(home, away)` pair. -/
def applyResults (pfw : Int) :
    Nat → List ((String × String) × String) → List ScheduleRow → List PointsRow →
    List ScheduleRow × List PointsRow
  | _, [], sched, table => (sched, table)
  | pos, hw :: rest, sched, table =>
      applyResults pfw (pos + 1) rest (setWinnerAt sched pos hw.2)
        (update_points_table pfw table hw.1.1 hw.1.2 hw.2)

/-- The per-candidate body: start from a copy of the schedule and of the
baseline table, fill in the candidate's winners, then the filled schedule and
the updated (unsorted) table. -/
def candidateOutcome (sim : PointsTableSimulator) (initial : List PointsRow)
    (cand : List String) : List ScheduleRow × List PointsRow :=
  let rem := find_remaining_matches_in_the_schedule sim
  applyResults sim.points_for_a_win (sim.tournament_schedule.length - rem.length)
    (rem.zip cand) sim.tournament_schedule initial

/-- The candidate's points table after `sort_values` + `reset_index`. -/
def candidateTable (sim : PointsTableSimulator) (initial : List PointsRow)
    (cand : List String) : List PointsRow :=
  sortRowsByPointsDesc (candidateOutcome sim initial cand).2

/-- The candidate's filled schedule (`temporary_schedule_df`). -/
def candidateSchedule (sim : PointsTableSimulator) (initial : List PointsRow)
    (cand : List String) : List ScheduleRow :=
  (candidateOutcome sim initial cand).1

/-- The qualification test
`team_name in updated_points_table["team"].values[:top_x]`. -/
def candidateQualifies (sim : PointsTableSimulator) (initial : List PointsRow)
    (team : String) (topx : Nat) (cand : List String) : Bool :=
  (((candidateTable sim initial cand).map (fun r => r.team)).take topx).contains team

/-- Embedding of the candidate loop of `simulate_the_qualification_scenarios`:
append the sorted table and the filled schedule when the candidate qualifies,
and break as soon as the collected count reaches
`desired_number_of_scenarios` (the check runs after the append, every
iteration). -/
def scenarioLoop (sim : PointsTableSimulator) (initial : List PointsRow)
    (team : String) (topx desired : Nat) :
    List (List String) → List (List PointsRow) → List (List ScheduleRow) →
    List (List PointsRow) × List (List ScheduleRow)
  | [], tables, scheds => (tables, scheds)
  | cand :: rest, tables, scheds =>
      let tables2 := if candidateQualifies sim initial team topx cand
        then tables ++ [candidateTable sim initial cand] else tables
      let scheds2 := if candidateQualifies sim initial team topx cand
        then scheds ++ [candidateSchedule sim initial cand] else scheds
      if desired ≤ tables2.length then (tables2, scheds2)
      else scenarioLoop sim initial team topx desired rest tables2 scheds2

/-- Embedding of `simulate_the_qualification_scenarios(team_name,
top_x_position_in_the_table, desired_number_of_scenarios)`.  The method body
performs no argument validation, no completion-cutoff check, and raises
nothing: it always runs the candidate loop and returns the two collected
lists. -/
def simulate_the_qualification_scenarios (sim : PointsTableSimulator)
    (team : String) (topx desired : Nat) :
    List (List PointsRow) × List (List ScheduleRow) :=
  scenarioLoop sim (current_points_table sim) team topx desired
    (productOutcomes (find_remaining_matches_in_the_schedule sim)) [] []

/-- Insert a schedule row into an ascending-by-match_number list (stable). -/
def insertRowByMatchNumberAsc (r : ScheduleRow) : List ScheduleRow → List ScheduleRow
  | [] => [r]
  | x :: xs =>
      if r.match_number < x.match_number then r :: x :: xs
      else x :: insertRowByMatchNumberAsc r xs

def sortRowsByMatchNumberAsc : List ScheduleRow → List ScheduleRow
  | [] => []
  | r :: rs => insertRowByMatchNumberAsc r (sortRowsByMatchNumberAsc rs)

/-- Modelled from the spec, for the refinement comparison of claim C1 (the
source derives pending matches in DataFrame row order instead): the
`(home, away)` pairs of the undecided rows ordered by ascending
`match_number`. -/
def pendingByMatchNumber (sim : PointsTableSimulator) : List (String × String) :=
  (sortRowsByMatchNumberAsc (sim.tournament_schedule.filter (fun r => !rowDecided r))).map
    fun r => (r.home, r.away)

/-- Apply a list of `((home, away), winner)` updates to a points table. -/
def applyTableUpdates (pfw : Int) :
    List ((String × String) × String) → List PointsRow → List PointsRow
  | [], table => table
  | hw :: rest, table =>
      applyTableUpdates pfw rest (update_points_table pfw table hw.1.1 hw.1.2 hw.2)

/-- Modelled from the spec, for the refinement comparison of claim C1: the
points tables of the first `desired` qualifying candidates when the outcome
space is the cartesian product over pending matches taken in ascending
`match_number` order (home-team outcome first within each match). -/
def claimOrderScenarioTables (sim : PointsTableSimulator) (team : String)
    (topx desired : Nat) : List (List PointsRow) :=
  let rem := pendingByMatchNumber sim
  let initial := current_points_table sim
  let tableOf := fun cand => sortRowsByPointsDesc (applyTableUpdates sim.points_for_a_win (rem.zip cand) initial)
  let q := fun cand => (((tableOf cand).map (fun r => r.team)).take topx).contains team
  (((productOutcomes rem).filter q).take desired).map tableOf

/-- State-threaded embedding of the `current_points_table` property: the body
only reads `self.tournament_schedule` and the scoring attributes and builds a
fresh DataFrame from `team_points_data`; no statement assigns to any field of
`self`, so the simulator state after the call is the input state. -/
def current_points_table_st (sim : PointsTableSimulator) :
    List PointsRow × PointsTableSimulator :=
  (current_points_table sim, sim)

/-- State-threaded embedding of `simulate_the_qualification_scenarios`: every
write in the body targets a local — `temporary_schedule_df` is initialized as
`self.tournament_schedule.copy()` and `updated_points_table` as
`initial_points_table.copy()` — and no statement assigns to any field of
`self`, so the simulator state after the call is the input state. -/
def simulate_the_qualification_scenarios_st (sim : PointsTableSimulator)
    (team : String) (topx desired : Nat) :
    (List (List PointsRow) × List (List ScheduleRow)) × PointsTableSimulator :=
  (simulate_the_qualification_scenarios sim team topx desired, sim)

/-- Writing consecutive winner cells starting at position `pos`: the schedule
component of `applyResults` equals this fold. -/
def setWinners : List ScheduleRow → Nat → List String → List ScheduleRow
  | sched, _, [] => sched
  | sched, pos, w :: ws => setWinners (setWinnerAt sched pos w) (pos + 1) ws

/-- Number of pending (undecided) rows of a schedule. -/
def pendingCount (s : List ScheduleRow) : Nat :=
  (s.filter (fun r => !rowDecided r)).length

/-- The layout assumed by the row-label arithmetic of
`simulate_the_qualification_scenarios`: the pending rows occupy exactly the
final `pendingCount s` positions of the schedule. -/
def trailingPendingLayout (s : List ScheduleRow) : Prop :=
  ∀ i : Fin s.length, rowDecided (s.get i) = true ↔ (i : Nat) < s.length - pendingCount s

instance (s : List ScheduleRow) : Decidable (trailingPendingLayout s) := by
  unfold trailingPendingLayout; infer_instance

/- Concrete inputs used by the claim theorems below. -/

/-- Schedule whose two pending rows appear out of `match_number` order
(match 6 in the row before match 5); base points B=5, A=3, C=2, D=0. -/
def c1Sim : PointsTableSimulator :=
  { tournament_schedule :=
      [ ⟨1, "A", "B", some "Draw"⟩
      , ⟨2, "A", "C", some "Draw"⟩
      , ⟨3, "A", "C", some "No Result"⟩
      , ⟨4, "B", "D", some "B"⟩
      , ⟨6, "C", "D", none⟩
      , ⟨5, "A", "B", none⟩ ],
    points_for_a_win := 4, points_for_a_no_result := 1, points_for_a_draw := 1 }

/-- A single drawn match. -/
def c2Sim : PointsTableSimulator :=
  { tournament_schedule := [ ⟨1, "Team A", "Team B", some "Draw"⟩ ],
    points_for_a_win := 3, points_for_a_no_result := 1, points_for_a_draw := 1 }

/-- The schedule of the repository's error tests: five decided matches and one
pending match. -/
def c3Sim : PointsTableSimulator :=
  { tournament_schedule :=
      [ ⟨1, "Team A", "Team B", some "Team A"⟩
      , ⟨2, "Team B", "Team C", some "Team C"⟩
      , ⟨3, "Team C", "Team A", some "Team A"⟩
      , ⟨4, "Team A", "Team C", some "Team C"⟩
      , ⟨5, "Team B", "Team A", some "Team A"⟩
      , ⟨6, "Team C", "Team B", none⟩ ],
    points_for_a_win := 3, points_for_a_no_result := 1, points_for_a_draw := 1 }

/-- The below-cutoff schedule of the repository's error tests: two decided
matches, four pending. -/
def c4Sim : PointsTableSimulator :=
  { tournament_schedule :=
      [ ⟨1, "Team A", "Team B", some "Team A"⟩
      , ⟨2, "Team B", "Team C", some "Team C"⟩
      , ⟨3, "Team C", "Team A", none⟩
      , ⟨4, "Team A", "Team C", none⟩
      , ⟨5, "Team B", "Team A", none⟩
      , ⟨6, "Team C", "Team B", none⟩ ],
    points_for_a_win := 3, points_for_a_no_result := 1, points_for_a_draw := 1 }

/-- Same schedule as the no-qualifying-scenario error test. -/
def c5Sim : PointsTableSimulator :=
  { tournament_schedule :=
      [ ⟨1, "Team A", "Team B", some "Team A"⟩
      , ⟨2, "Team B", "Team C", some "Team C"⟩
      , ⟨3, "Team C", "Team A", some "Team A"⟩
      , ⟨4, "Team A", "Team C", some "Team C"⟩
      , ⟨5, "Team B", "Team A", some "Team A"⟩
      , ⟨6, "Team C", "Team B", none⟩ ],
    points_for_a_win := 3, points_for_a_no_result := 1, points_for_a_draw := 1 }

/-- One decided and one pending match between the same two teams. -/
def c7Sim : PointsTableSimulator :=
  { tournament_schedule := [ ⟨1, "A", "B", some "A"⟩, ⟨2, "A", "B", none⟩ ],
    points_for_a_win := 3, points_for_a_no_result := 1, points_for_a_draw := 1 }

/-- One decided and one pending match; the first candidate qualifies. -/
def c9Sim : PointsTableSimulator :=
  { tournament_schedule := [ ⟨1, "A", "B", some "A"⟩, ⟨2, "A", "B", none⟩ ],
    points_for_a_win := 3, points_for_a_no_result := 1, points_for_a_draw := 1 }

/-- Schedule violating the trailing-rows layout: the pending row is first and
the decided row last. -/
def c10BadSim : PointsTableSimulator :=
  { tournament_schedule := [ ⟨1, "A", "B", none⟩, ⟨2, "C", "D", some "C"⟩ ],
    points_for_a_win := 3, points_for_a_no_result := 1, points_for_a_draw := 1 }

/-- Schedule satisfying the trailing-rows layout: decided row first, pending
row last. -/
def c10GoodSim : PointsTableSimulator :=
  { tournament_schedule := [ ⟨1, "C", "D", some "C"⟩, ⟨2, "A", "B", none⟩ ],
    points_for_a_win := 3, points_for_a_no_result := 1, points_for_a_draw := 1 }

/-! Helper lemmas shared by the claim theorems. -/

theorem scenarioLoop_spec (sim : PointsTableSimulator) (initial : List PointsRow)
    (team : String) (topx desired : Nat) :
    ∀ (cands : List (List String)) (tables : List (List PointsRow))
      (scheds : List (List ScheduleRow)),
      tables.length = scheds.length → tables.length < desired →
      scenarioLoop sim initial team topx desired cands tables scheds =
        (tables ++ (((cands.filter (fun c => candidateQualifies sim initial team topx c)).take
            (desired - tables.length)).map (candidateTable sim initial)),
         scheds ++ (((cands.filter (fun c => candidateQualifies sim initial team topx c)).take
            (desired - tables.length)).map (candidateSchedule sim initial))) := by
  intro cands
  induction cands with
  | nil => intro tables scheds hlen hlt; simp [scenarioLoop]
  | cons cand rest ih =>
    intro tables scheds hlen hlt
    by_cases hq : candidateQualifies sim initial team topx cand = true
    · by_cases hd : desired ≤ tables.length + 1
      · have htake : desired - tables.length = 1 := by omega
        simp only [scenarioLoop, hq, if_true, List.length_append, List.length_cons,
          List.length_nil, List.filter_cons, htake]
        rw [if_pos (by simpa using hd)]
        simp [List.take_one]
      · have hlt2 : tables.length + 1 < desired := by omega
        have hrec := ih (tables ++ [candidateTable sim initial cand])
          (scheds ++ [candidateSchedule sim initial cand])
          (by simp [hlen]) (by simpa using hlt2)
        simp only [scenarioLoop, hq, if_true]
        rw [if_neg (by simp; omega)]
        rw [hrec]
        have hsub : desired - tables.length = (desired - (tables.length + 1)) + 1 := by omega
        simp only [List.filter_cons, hq, if_true, List.length_append, List.length_cons,
          List.length_nil, hsub, List.take_succ_cons, List.map_cons, List.append_assoc,
          List.cons_append, List.nil_append]
    · have hq2 : candidateQualifies sim initial team topx cand = false := by
        simpa using hq
      have hrec := ih tables scheds hlen hlt
      simp only [scenarioLoop, hq2, if_false, Bool.false_eq_true]
      rw [if_neg (by omega)]
      rw [hrec]
      simp [List.filter_cons, hq2]

theorem scenarioLoop_lengths (sim : PointsTableSimulator) (initial : List PointsRow)
    (team : String) (topx desired : Nat) :
    ∀ (cands : List (List String)) (tables : List (List PointsRow))
      (scheds : List (List ScheduleRow)),
      tables.length = scheds.length →
      (scenarioLoop sim initial team topx desired cands tables scheds).1.length =
        (scenarioLoop sim initial team topx desired cands tables scheds).2.length := by
  intro cands
  induction cands with
  | nil => intro tables scheds hlen; simpa [scenarioLoop] using hlen
  | cons cand rest ih =>
    intro tables scheds hlen
    by_cases hq : candidateQualifies sim initial team topx cand = true
    · simp only [scenarioLoop, hq, if_true]
      by_cases hd : desired ≤ (tables ++ [candidateTable sim initial cand]).length
      · rw [if_pos hd]; simp [hlen]
      · rw [if_neg hd]; exact ih _ _ (by simp [hlen])
    · have hq2 : candidateQualifies sim initial team topx cand = false := by simpa using hq
      simp only [scenarioLoop, hq2, Bool.false_eq_true, if_false]
      by_cases hd : desired ≤ tables.length
      · rw [if_pos hd]; exact hlen
      · rw [if_neg hd]; exact ih _ _ hlen

theorem countP_and_not_split (l : List ScheduleRow) (p q : ScheduleRow → Bool) :
    (l.countP fun r => p r && q r) + (l.countP fun r => p r && !q r) = l.countP p := by
  induction l with
  | nil => simp
  | cons a t ih =>
    simp only [List.countP_cons]
    cases hp : p a <;> cases hq : q a <;> simp [hp, hq] <;> omega

theorem mem_insertRowByPointsDesc {x r : PointsRow} :
    ∀ {l : List PointsRow}, x ∈ insertRowByPointsDesc r l → x = r ∨ x ∈ l := by
  intro l
  induction l with
  | nil => intro h; exact Or.inl (by simpa [insertRowByPointsDesc] using h)
  | cons a t ih =>
    intro h
    by_cases hc : a.points < r.points
    · rw [insertRowByPointsDesc, if_pos hc] at h
      rcases List.mem_cons.mp h with h1 | h2
      · exact Or.inl h1
      · exact Or.inr h2
    · rw [insertRowByPointsDesc, if_neg hc] at h
      rcases List.mem_cons.mp h with h1 | h2
      · exact Or.inr (List.mem_cons.mpr (Or.inl h1))
      · rcases ih h2 with h3 | h4
        · exact Or.inl h3
        · exact Or.inr (List.mem_cons.mpr (Or.inr h4))

theorem mem_sortRowsByPointsDesc {x : PointsRow} :
    ∀ {l : List PointsRow}, x ∈ sortRowsByPointsDesc l → x ∈ l := by
  intro l
  induction l with
  | nil => intro h; simp [sortRowsByPointsDesc] at h
  | cons a t ih =>
    intro h
    rw [sortRowsByPointsDesc] at h
    rcases mem_insertRowByPointsDesc h with h1 | h2
    · exact List.mem_cons.mpr (Or.inl h1)
    · exact List.mem_cons.mpr (Or.inr (ih h2))

theorem length_of_mem_productOutcomes :
    ∀ {rem : List (String × String)} {cand : List String},
      cand ∈ productOutcomes rem → cand.length = rem.length := by
  intro rem
  induction rem with
  | nil =>
    intro cand h
    simp only [productOutcomes, List.mem_singleton] at h
    simp [h]
  | cons p rest ih =>
    intro cand h
    simp only [productOutcomes, List.mem_append, List.mem_map] at h
    rcases h with ⟨c, hc, rfl⟩ | ⟨c, hc, rfl⟩ <;> simp [ih hc]

theorem zip_map_snd_of_length_eq :
    ∀ (rem : List (String × String)) (cand : List String),
      cand.length = rem.length → (rem.zip cand).map (fun x => x.2) = cand := by
  intro rem
  induction rem with
  | nil => intro cand h; simp at h; simp [h]
  | cons p rest ih =>
    intro cand h
    cases cand with
    | nil => simp at h
    | cons w ws =>
      simp only [List.zip_cons_cons, List.map_cons]
      rw [ih ws (by simpa using h)]

theorem mem_scenarioLoop_snd (sim : PointsTableSimulator) (initial : List PointsRow)
    (team : String) (topx desired : Nat) :
    ∀ (cands : List (List String)) (tables : List (List PointsRow))
      (scheds : List (List ScheduleRow)) (t : List ScheduleRow),
      t ∈ (scenarioLoop sim initial team topx desired cands tables scheds).2 →
      t ∈ scheds ∨ ∃ cand ∈ cands, t = candidateSchedule sim initial cand := by
  intro cands
  induction cands with
  | nil => intro tables scheds t h; exact Or.inl (by simpa [scenarioLoop] using h)
  | cons cand rest ih =>
    intro tables scheds t h
    have hstep : ∀ s2 : List (List ScheduleRow),
        t ∈ s2 ++ [candidateSchedule sim initial cand] →
        t ∈ s2 ∨ ∃ c ∈ cand :: rest, t = candidateSchedule sim initial c := by
      intro s2 hmem
      rcases List.mem_append.mp hmem with h1 | h2
      · exact Or.inl h1
      · exact Or.inr ⟨cand, List.mem_cons_self cand rest, by simpa using h2⟩
    by_cases hq : candidateQualifies sim initial team topx cand = true
    · simp only [scenarioLoop, hq, if_true] at h
      by_cases hd : desired ≤ (tables ++ [candidateTable sim initial cand]).length
      · rw [if_pos hd] at h
        exact hstep scheds h
      · rw [if_neg hd] at h
        rcases ih _ _ t h with h1 | ⟨c, hc, rfl⟩
        · exact hstep scheds h1
        · exact Or.inr ⟨c, List.mem_cons_of_mem cand hc, rfl⟩
    · have hq2 : candidateQualifies sim initial team topx cand = false := by simpa using hq
      simp only [scenarioLoop, hq2, Bool.false_eq_true, if_false] at h
      by_cases hd : desired ≤ tables.length
      · rw [if_pos hd] at h
        exact Or.inl h
      · rw [if_neg hd] at h
        rcases ih _ _ t h with h1 | ⟨c, hc, rfl⟩
        · exact Or.inl h1
        · exact Or.inr ⟨c, List.mem_cons_of_mem cand hc, rfl⟩

theorem applyResults_fst (pfw : Int) :
    ∀ (pairs : List ((String × String) × String)) (pos : Nat) (sched : List ScheduleRow)
      (table : List PointsRow),
      (applyResults pfw pos pairs sched table).1 =
        setWinners sched pos (pairs.map fun x => x.2) := by
  intro pairs
  induction pairs with
  | nil => intro pos sched table; rfl
  | cons hw rest ih =>
    intro pos sched table
    simp only [applyResults, List.map_cons, setWinners]
    exact ih (pos + 1) (setWinnerAt sched pos hw.2) _

theorem setWinnerAt_length (w : String) :
    ∀ (sched : List ScheduleRow) (pos : Nat),
      (setWinnerAt sched pos w).length = sched.length := by
  intro sched
  induction sched with
  | nil => intro pos; cases pos <;> rfl
  | cons r rs ih =>
    intro pos
    cases pos with
    | zero => rfl
    | succ p => simp [setWinnerAt, ih p]

theorem setWinners_length :
    ∀ (ws : List String) (sched : List ScheduleRow) (pos : Nat),
      (setWinners sched pos ws).length = sched.length := by
  intro ws
  induction ws with
  | nil => intro sched pos; rfl
  | cons w ws2 ih =>
    intro sched pos
    rw [setWinners, ih, setWinnerAt_length]

theorem setWinnerAt_getElem (w : String) :
    ∀ (sched : List ScheduleRow) (pos j : Nat),
      (setWinnerAt sched pos w)[j]? =
        if j = pos then (sched[j]?).map (fun r => { r with winner := some w })
        else sched[j]? := by
  intro sched
  induction sched with
  | nil => intro pos j; cases pos <;> simp [setWinnerAt]
  | cons r rs ih =>
    intro pos j
    cases pos with
    | zero =>
      cases j with
      | zero => simp [setWinnerAt]
      | succ j2 => simp [setWinnerAt]
    | succ p2 =>
      cases j with
      | zero => simp [setWinnerAt]
      | succ j2 =>
        simp only [setWinnerAt, List.getElem?_cons_succ, ih p2 j2, Nat.succ_eq_add_one]
        by_cases hj : j2 = p2
        · simp [hj]
        · rw [if_neg hj, if_neg (by omega)]

theorem setWinners_getElem :
    ∀ (ws : List String) (pos : Nat) (sched : List ScheduleRow) (j : Nat),
      (setWinners sched pos ws)[j]? =
        if pos ≤ j ∧ j < pos + ws.length
        then (sched[j]?).map (fun r => { r with winner := ws[j - pos]? })
        else sched[j]? := by
  intro ws
  induction ws with
  | nil =>
    intro pos sched j
    rw [setWinners, if_neg (by simp)]
  | cons w ws2 ih =>
    intro pos sched j
    rw [setWinners, ih, setWinnerAt_getElem]
    rcases Nat.lt_trichotomy j pos with hlt | heq | hgt
    · rw [if_neg (by omega), if_neg (by omega), if_neg (by simp; omega)]
    · subst heq
      rw [if_neg (by omega), if_pos rfl, if_pos (by refine ⟨Nat.le_refl j, ?_⟩; simp)]
      simp
    · by_cases h2 : j < pos + 1 + ws2.length
      · rw [if_pos ⟨by omega, h2⟩, if_neg (by omega),
          if_pos (by refine ⟨by omega, ?_⟩; simp; omega)]
        have hsub : j - pos = (j - (pos + 1)) + 1 := by omega
        rw [hsub, List.getElem?_cons_succ]
      · rw [if_neg (by omega), if_neg (by omega), if_neg (by simp; omega)]

theorem find_remaining_length (sim : PointsTableSimulator) :
    (find_remaining_matches_in_the_schedule sim).length =
      pendingCount sim.tournament_schedule := by
  simp [find_remaining_matches_in_the_schedule, pendingCount]

theorem simulate_filled_schedules_trailing (sim : PointsTableSimulator) (team : String)
    (topx desired : Nat) (hlay : trailingPendingLayout sim.tournament_schedule) :
    ∀ t ∈ (simulate_the_qualification_scenarios sim team topx desired).2,
      ∃ cand ∈ productOutcomes (find_remaining_matches_in_the_schedule sim),
        t.length = sim.tournament_schedule.length ∧
        ∀ j : Fin sim.tournament_schedule.length,
          (rowDecided (sim.tournament_schedule.get j) = true →
            t[(j : Nat)]? = some (sim.tournament_schedule.get j)) ∧
          (rowDecided (sim.tournament_schedule.get j) = false →
            (j : Nat) - (sim.tournament_schedule.length -
                pendingCount sim.tournament_schedule) < cand.length ∧
            t[(j : Nat)]? = some { sim.tournament_schedule.get j with
              winner := cand[(j : Nat) - (sim.tournament_schedule.length -
                pendingCount sim.tournament_schedule)]? }) := by
  intro t ht
  rcases mem_scenarioLoop_snd sim (current_points_table sim) team topx desired _ [] [] t
      ht with h0 | ⟨cand, hc, rfl⟩
  · simp at h0
  have hlen := length_of_mem_productOutcomes hc
  have hfr := find_remaining_length sim
  have hP : pendingCount sim.tournament_schedule ≤ sim.tournament_schedule.length := by
    simpa [pendingCount] using
      List.length_filter_le (fun r => !rowDecided r) sim.tournament_schedule
  have hsched : candidateSchedule sim (current_points_table sim) cand =
      setWinners sim.tournament_schedule
        (sim.tournament_schedule.length - pendingCount sim.tournament_schedule) cand := by
    rw [candidateSchedule, candidateOutcome, applyResults_fst,
      zip_map_snd_of_length_eq _ _ (by rw [hlen]), hfr]
  refine ⟨cand, hc, ?_, ?_⟩
  · rw [hsched, setWinners_length]
  · intro j
    constructor
    · intro hdec
      have hj : (j : Nat) < sim.tournament_schedule.length -
          pendingCount sim.tournament_schedule := (hlay j).mp hdec
      rw [hsched, setWinners_getElem, if_neg (by omega)]
      simp [List.getElem?_eq_getElem j.isLt, List.get_eq_getElem]
    · intro hpend
      have hj : ¬ ((j : Nat) < sim.tournament_schedule.length -
          pendingCount sim.tournament_schedule) := by
        intro hcon
        have hcontra := (hlay j).mpr hcon
        rw [hpend] at hcontra
        exact Bool.false_ne_true hcontra
      have hjlt : (j : Nat) < sim.tournament_schedule.length := j.isLt
      have hcl : cand.length = pendingCount sim.tournament_schedule := by rw [hlen, hfr]
      constructor
      · omega
      · rw [hsched, setWinners_getElem, if_pos (by constructor <;> omega)]
        simp [List.getElem?_eq_getElem j.isLt, List.get_eq_getElem]

/-! Claim theorems. -/

/-- Claim C1, counterexample: on `c1Sim` — whose two pending rows appear in
the DataFrame in the opposite of ascending `match_number` order — the first
qualifying scenario returned by `simulate_the_qualification_scenarios` (team
"B", top 2, one scenario) differs from the first qualifying candidate of the
cartesian product taken over pending matches in ascending `match_number`
order: the method iterates pending matches in DataFrame row order. -/
theorem C1_first_scenario_not_in_match_number_order :
    (simulate_the_qualification_scenarios c1Sim "B" 2 1).1 ≠
      claimOrderScenarioTables c1Sim "B" 2 1 := by
  decide

/-- Claim C1, amended: for every simulator and every positive
`desired_number_of_scenarios`, `simulate_the_qualification_scenarios`
returns exactly the first `desired` qualifying candidates — sorted table and
filled schedule — of the cartesian product over pending matches taken in
DataFrame row order (home-team outcome before away-team outcome within each
match, the first pending match varying slowest), stopping as soon as that
many have been collected. -/
theorem C1_row_order_enumeration_and_early_stop (sim : PointsTableSimulator)
    (team : String) (topx desired : Nat) (h : 1 ≤ desired) :
    simulate_the_qualification_scenarios sim team topx desired =
      ((((productOutcomes (find_remaining_matches_in_the_schedule sim)).filter
          (fun c => candidateQualifies sim (current_points_table sim) team topx c)).take
          desired).map (candidateTable sim (current_points_table sim)),
       (((productOutcomes (find_remaining_matches_in_the_schedule sim)).filter
          (fun c => candidateQualifies sim (current_points_table sim) team topx c)).take
          desired).map (candidateSchedule sim (current_points_table sim))) := by
  have hmain := scenarioLoop_spec sim (current_points_table sim) team topx desired
    (productOutcomes (find_remaining_matches_in_the_schedule sim)) [] [] rfl (by simp; omega)
  simpa [simulate_the_qualification_scenarios] using hmain

/-- Claim C1, witness: the amended theorem applied at `c1Sim`, team "B",
top 2, one desired scenario. -/
theorem C1_row_order_enumeration_and_early_stop_witness :
    simulate_the_qualification_scenarios c1Sim "B" 2 1 =
      ((((productOutcomes (find_remaining_matches_in_the_schedule c1Sim)).filter
          (fun c => candidateQualifies c1Sim (current_points_table c1Sim) "B" 2 c)).take
          1).map (candidateTable c1Sim (current_points_table c1Sim)),
       (((productOutcomes (find_remaining_matches_in_the_schedule c1Sim)).filter
          (fun c => candidateQualifies c1Sim (current_points_table c1Sim) "B" 2 c)).take
          1).map (candidateSchedule c1Sim (current_points_table c1Sim))) :=
  C1_row_order_enumeration_and_early_stop c1Sim "B" 2 1 (by decide)

/-- Claim C2: refuted on the code as written — in the table computed by
`current_points_table` for a schedule with one drawn match, each team has
`matches_played = 1` but `matches_won + matches_lost + matches_drawn +
matches_with_no_result = 2`, because the `matches_lost` filter counts the
`"Draw"` / `"No Result"` sentinel rows as losses. -/
theorem C2_drawn_match_counted_as_lost :
    ¬ (∀ row ∈ current_points_table c2Sim,
        row.matches_played = row.matches_won + row.matches_lost +
          row.matches_drawn + row.matches_with_no_result) := by
  decide

/-- Claim C3: refuted on the code as written — calling
`simulate_the_qualification_scenarios` with a team absent from the schedule
("Team Z") runs the enumeration and returns a pair of empty lists instead of
signalling `TeamNotFound` before enumeration. -/
theorem C3_absent_team_returns_normally :
    simulate_the_qualification_scenarios c3Sim "Team Z" 2 2 = ([], []) := by
  decide

/-- Claim C4: refuted on the code as written — on a schedule with only 2 of
6 matches decided (the repository's below-cutoff error-test schedule) the
method performs the enumeration and returns three scenarios; no completion
fraction is computed and no `TournamentCompletionBelowCutoff` error is
signalled. -/
theorem C4_below_cutoff_still_enumerates :
    (simulate_the_qualification_scenarios c4Sim "Team A" 2 3).1.length = 3 ∧
    (simulate_the_qualification_scenarios c4Sim "Team A" 2 3).2.length = 3 := by
  decide

/-- Claim C5: refuted on the code as written — on the repository's
no-qualifying-scenario error-test schedule (Team B cannot reach the top 2 in
either outcome of the single pending match) the method exhausts the outcome
space and returns a pair of empty lists instead of signalling
`NoQualifyingScenarios`. -/
theorem C5_exhausted_space_returns_empty_lists :
    simulate_the_qualification_scenarios c5Sim "Team B" 2 3 = ([], []) := by
  decide

/-- Claim C7: every row of the table computed by `current_points_table`
satisfies `matches_played + remaining_matches = number of schedule rows
involving the row's team`. -/
theorem C7_played_plus_remaining_eq_involving (sim : PointsTableSimulator) :
    ∀ row ∈ current_points_table sim,
      row.matches_played + row.remaining_matches =
        sim.tournament_schedule.countP (fun r => involves row.team r) := by
  intro row hrow
  have hmem : row ∈ (uniqueTeams sim.tournament_schedule).map (teamPointsRow sim) :=
    mem_sortRowsByPointsDesc hrow
  rcases List.mem_map.mp hmem with ⟨t, _, rfl⟩
  show matchesPlayedCount sim.tournament_schedule t +
      remainingCount sim.tournament_schedule t = _
  have hsplit := countP_and_not_split sim.tournament_schedule
    (fun r => involves t r) (fun r => rowDecided r)
  simpa [matchesPlayedCount, remainingCount, teamPointsRow] using hsplit

/-- Claim C7, witness: the theorem applied to the row of team "A" in the
table of `c7Sim`. -/
theorem C7_played_plus_remaining_eq_involving_witness :
    teamPointsRow c7Sim "A" ∈ current_points_table c7Sim ∧
    (teamPointsRow c7Sim "A").matches_played +
        (teamPointsRow c7Sim "A").remaining_matches =
      c7Sim.tournament_schedule.countP
        (fun r => involves (teamPointsRow c7Sim "A").team r) :=
  ⟨by decide, C7_played_plus_remaining_eq_involving c7Sim (teamPointsRow c7Sim "A") (by decide)⟩

/-- Claim C8: in the state-threaded embedding of both public operations, the
simulator state — in particular the caller's `tournament_schedule` — after
the call equals the state before it: every write in
`simulate_the_qualification_scenarios` targets the local copies
(`temporary_schedule_df`, `updated_points_table`) and `current_points_table`
only reads. -/
theorem C8_schedule_state_unchanged (sim : PointsTableSimulator) (team : String)
    (topx desired : Nat) :
    (simulate_the_qualification_scenarios_st sim team topx desired).2 = sim ∧
    (current_points_table_st sim).2 = sim :=
  ⟨rfl, rfl⟩

/-- Claim C9, counterexample: with `desired_number_of_scenarios = 0` the
length bound fails — the break check runs only after a qualifying candidate
has already been appended, so the call on `c9Sim` returns one scenario. -/
theorem C9_zero_desired_exceeds_bound :
    ¬ ((simulate_the_qualification_scenarios c9Sim "A" 1 0).1.length ≤ 0) := by
  decide

/-- Claim C9, amended: the two returned lists always have equal length, and
whenever `desired_number_of_scenarios ≥ 1` that length is at most
`desired_number_of_scenarios` (for `desired = 0` the call can return one
scenario). -/
theorem C9_equal_lengths_and_bound (sim : PointsTableSimulator) (team : String)
    (topx desired : Nat) :
    (simulate_the_qualification_scenarios sim team topx desired).1.length =
      (simulate_the_qualification_scenarios sim team topx desired).2.length ∧
    (1 ≤ desired →
      (simulate_the_qualification_scenarios sim team topx desired).1.length ≤ desired) := by
  constructor
  · exact scenarioLoop_lengths sim (current_points_table sim) team topx desired
      (productOutcomes (find_remaining_matches_in_the_schedule sim)) [] [] rfl
  · intro h
    have hmain := scenarioLoop_spec sim (current_points_table sim) team topx desired
      (productOutcomes (find_remaining_matches_in_the_schedule sim)) [] [] rfl
      (by simp; omega)
    have hfst : (simulate_the_qualification_scenarios sim team topx desired).1 =
        (((productOutcomes (find_remaining_matches_in_the_schedule sim)).filter
          (fun c => candidateQualifies sim (current_points_table sim) team topx c)).take
          desired).map (candidateTable sim (current_points_table sim)) := by
      simpa [simulate_the_qualification_scenarios] using congrArg Prod.fst hmain
    rw [hfst]
    simp [List.length_take_le]

/-- Claim C9, witness: the amended theorem applied at `c9Sim`, team "A",
top 1, two desired scenarios. -/
theorem C9_equal_lengths_and_bound_witness :
    (simulate_the_qualification_scenarios c9Sim "A" 1 2).1.length =
      (simulate_the_qualification_scenarios c9Sim "A" 1 2).2.length ∧
    (simulate_the_qualification_scenarios c9Sim "A" 1 2).1.length ≤ 2 :=
  ⟨(C9_equal_lengths_and_bound c9Sim "A" 1 2).1,
   (C9_equal_lengths_and_bound c9Sim "A" 1 2).2 (by decide)⟩

/-- Claim C10: (1) whenever the pending rows occupy exactly the final
positions of the schedule, every filled schedule returned by
`simulate_the_qualification_scenarios` arises from some candidate of the
outcome space by writing that candidate's chosen winners into the
previously-pending winner cells — position `len - P + i` receives the i-th
chosen winner — leaving every other cell equal to the input schedule; and
(2) only under that trailing-rows precondition: on `c10BadSim`, whose
pending row is first, the returned schedules leave the pending winner cell
empty and overwrite the decided row's winner instead. -/
theorem C10_winner_written_at_trailing_positions :
    (∀ (sim : PointsTableSimulator) (team : String) (topx desired : Nat),
      trailingPendingLayout sim.tournament_schedule →
      ∀ t ∈ (simulate_the_qualification_scenarios sim team topx desired).2,
        ∃ cand ∈ productOutcomes (find_remaining_matches_in_the_schedule sim),
          t.length = sim.tournament_schedule.length ∧
          ∀ j : Fin sim.tournament_schedule.length,
            (rowDecided (sim.tournament_schedule.get j) = true →
              t[(j : Nat)]? = some (sim.tournament_schedule.get j)) ∧
            (rowDecided (sim.tournament_schedule.get j) = false →
              (j : Nat) - (sim.tournament_schedule.length -
                  pendingCount sim.tournament_schedule) < cand.length ∧
              t[(j : Nat)]? = some { sim.tournament_schedule.get j with
                winner := cand[(j : Nat) - (sim.tournament_schedule.length -
                  pendingCount sim.tournament_schedule)]? })) ∧
    (¬ trailingPendingLayout c10BadSim.tournament_schedule ∧
      (simulate_the_qualification_scenarios c10BadSim "A" 4 3).2 =
        [ [ ⟨1, "A", "B", none⟩, ⟨2, "C", "D", some "A"⟩ ],
          [ ⟨1, "A", "B", none⟩, ⟨2, "C", "D", some "B"⟩ ] ]) :=
  ⟨simulate_filled_schedules_trailing, by decide, by decide⟩

/-- Claim C10, witness: part (1) applied at `c10GoodSim` (decided row first,
pending row last) to its unique returned filled schedule. -/
theorem C10_winner_written_at_trailing_positions_witness :
    ∃ cand ∈ productOutcomes (find_remaining_matches_in_the_schedule c10GoodSim),
      ([ ⟨1, "C", "D", some "C"⟩, ⟨2, "A", "B", some "A"⟩ ] : List ScheduleRow).length =
        c10GoodSim.tournament_schedule.length ∧
      ∀ j : Fin c10GoodSim.tournament_schedule.length,
        (rowDecided (c10GoodSim.tournament_schedule.get j) = true →
          ([ ⟨1, "C", "D", some "C"⟩, ⟨2, "A", "B", some "A"⟩ ] :
              List ScheduleRow)[(j : Nat)]? =
            some (c10GoodSim.tournament_schedule.get j)) ∧
        (rowDecided (c10GoodSim.tournament_schedule.get j) = false →
          (j : Nat) - (c10GoodSim.tournament_schedule.length -
              pendingCount c10GoodSim.tournament_schedule) < cand.length ∧
          ([ ⟨1, "C", "D", some "C"⟩, ⟨2, "A", "B", some "A"⟩ ] :
              List ScheduleRow)[(j : Nat)]? =
            some { c10GoodSim.tournament_schedule.get j with
              winner := cand[(j : Nat) - (c10GoodSim.tournament_schedule.length -
                pendingCount c10GoodSim.tournament_schedule)]? }) :=
  C10_winner_written_at_trailing_positions.1 c10GoodSim "A" 2 3 (by decide)
    [ ⟨1, "C", "D", some "C"⟩, ⟨2, "A", "B", some "A"⟩ ] (by decide)

end PointsTableSim
